import Mathlib

/-!
# Verification of the backup engine (Client/Client.py)

A shallow embedding of the backup engine of the `system-backup` repository:
path exclusion (`isExcluded`), directory scanning (`scanDirectory`), archive
construction (`createTarball` / `walkEntries`), restore (`restoreFiles`),
the backup entry points, configuration loading (`loadConfig`) and the
auto-backup scheduler (`autoBackupScheduler`), together with theorems about
the properties the design document states for them.

Modelling conventions:
* Paths are plain strings, already in `os.path.normpath` normal form: the
  code normalizes every path before comparing, and the model constructs
  joined paths directly in normalized form (no trailing separator, single
  separators).  `pathJoin a b` models `os.path.normpath(os.path.join(a, b))`
  for a normalized absolute `a` and a relative component `b`.
* Python's `str.startswith` is `startswith` below: a raw character-wise
  prefix test, exactly as the source uses it.
* File contents are `List Nat` (byte lists); file sizes are tracked
  separately, as the code consults `os.path.getsize` and not the bytes.
-/

namespace BackupSystem

/-- Predicate `listPre a b` is true iff `a` is a (character-wise) prefix of `b`. -/
def listPre : List Char → List Char → Bool
  | [], _ => true
  | _ :: _, [] => false
  | a :: as, b :: bs => a == b && listPre as bs

/-- Python `s.startswith(pre)`: raw string prefix test (`Client.py` uses it
at lines 113-114, 122, 155-156, 162 and 181 on normalized paths). -/
def startswith (s pre : String) : Bool := listPre pre.data s.data

/-- The per-file size cap, `FILE_SIZE_LIMIT = 500 * 1024 * 1024`. -/
def FILE_SIZE_LIMIT : Nat := 500 * 1024 * 1024

/-- Constant `BACKUP_DIR = os.path.join(os.path.expanduser("~"), "BackupSystemBackups")`;
the user's home directory is modelled as the fixed string `/home/user`. -/
def BACKUP_DIR : String := "/home/user/BackupSystemBackups"

/-- The fixed system exclusion list `EXCLUDE_DIRS` of `Client.py`. -/
def EXCLUDE_DIRS : List String :=
  ["/tmp", "/proc", "/run", "/sys", "/dev", "/mnt", "/media",
   BACKUP_DIR, "/var/log", "/var/tmp"]

/-- The exclusion test of `create_tarball_with_progress` (lines 162 and 181):
the normalized path is excluded iff it is a member of the normalized
exclusion set or it `startswith` some entry (a raw string prefix test). -/
def isExcluded (excl : List String) (p : String) : Bool :=
  excl.contains p || excl.any (fun e => startswith p e)

/-- The traversal-pruning survivor test of lines 113-114 and 155-156: a
subdirectory is kept iff it is neither a member of the exclusion set nor
`startswith` any entry.  (Literally the negation of `isExcluded`.) -/
def pruneKeep (excl : List String) (p : String) : Bool :=
  !(excl.contains p) && !(excl.any (fun e => startswith p e))

/-- The file-exclusion test of `scan_directory` (line 122), which only
performs the `startswith` scan, without the membership test. -/
def scanFileExcluded (excl : List String) (p : String) : Bool :=
  excl.any (fun e => startswith p e)

/-- Modelled from the spec (§4.1): the segment-wise exclusion test the design
document prescribes — `P` is excluded iff its normalized absolute form equals
an entry or is a descendant of one under path-segment-wise prefix matching
(so `/var/logs` is not matched by the entry `/var/log`). -/
def isExcludedSpec (excl : List String) (p : String) : Bool :=
  excl.any (fun e => p == e || startswith p (e ++ "/"))

/-! ## Filesystem model and the archive walk -/

/-- A regular file as the engine observes it: a name, the size reported by
`os.path.getsize`, its byte content, whether `os.access(path, R_OK)` holds
(and the bytes can actually be read), and whether `tar.add` on it succeeds
(false models a file vanishing mid-add, the per-entry failure of line 202). -/
structure FileNode where
  name : String
  size : Nat
  content : List Nat
  readable : Bool
  addOk : Bool
deriving DecidableEq, Repr

/-- The subdirectories of a directory, in listing order: each carries its
name, whether it is readable (`readable = false` models a directory
`os.access` rejects and whose listing fails — `os.walk` then yields nothing
beneath it), the files directly inside it, its own subdirectories, and the
rest of the sibling list. -/
inductive Forest where
  | nil : Forest
  | cons (name : String) (readable : Bool) (files : List FileNode)
      (children : Forest) (rest : Forest) : Forest
deriving DecidableEq, Repr

/-- A directory tree: the files directly inside the root, and the root's
subdirectories. -/
structure DirTree where
  files : List FileNode
  children : Forest
deriving DecidableEq, Repr

/-- Models `os.path.normpath(os.path.join(a, b))` for a normalized absolute `a`
(no trailing separator) and a bare component `b`. -/
def pathJoin (a b : String) : String := a ++ "/" ++ b

/-- Models `os.path.relpath(join(cur, n), source)` tracked incrementally: `r` is the
relative path of the current walk root (`""` at the source root itself). -/
def relJoin (r n : String) : String := if r = "" then n else r ++ "/" ++ n

/-- One archive member: a directory entry or a file entry, keyed by the
`arcname` recorded at build time (the path relative to the source root). -/
inductive Entry where
  | dirE (relpath : String)
  | fileE (relpath : String) (content : List Nat)
deriving DecidableEq, Repr

/-- The file members one `tar.add` call produces from the files directly
inside a directory whose recorded arcname is `rel`: every readable file
that does not vanish mid-add, with no exclusion or size-cap check —
`tarfile`'s recursion applies neither. -/
def tarFilesAdd (rel : String) (files : List FileNode) : List Entry :=
  files.filterMap fun f =>
    if f.readable && f.addOk then
      some (Entry.fileE (relJoin rel f.name) f.content)
    else none

/-- The members produced inside one `tar.add(dir_path, arcname=rel)` call
for the contents below the directory: `tarfile`'s default `recursive=True`
descends through the whole subtree, adding every directory and every
readable file it reaches.  (A nested failure in the real `tarfile` aborts
the remainder of that one `add` call; the model keeps the later entries,
which only enlarges the produced set.) -/
def recAddForest (rel : String) : Forest → List Entry
  | .nil => []
  | .cons n rb fs ch rest =>
    (Entry.dirE (relJoin rel n) ::
      (if rb then tarFilesAdd (relJoin rel n) fs ++ recAddForest (relJoin rel n) ch
       else []))
    ++ recAddForest rel rest

/-- The members contributed by `tar.add` on a directory whose recorded
arcname is `rel`: the directory entry itself, then (when readable) its
recursive contents. -/
def recAddDir (rel : String) (readable : Bool) (files : List FileNode)
    (children : Forest) : List Entry :=
  Entry.dirE rel ::
    (if readable then tarFilesAdd rel files ++ recAddForest rel children
     else [])

/-- The directory loop of `create_tarball_with_progress` (lines 155-173)
over the subdirectory listing of the current walk root: the in-place
pruning of lines 155-156 drops excluded names, then the loop re-checks
exclusion (line 162, dead after pruning), checks `os.access` (line 165)
and calls `tar.add` on the directory — recursively, `tarfile`'s default. -/
def dirAdds (excl : List String) (cur rel : String) : Forest → List Entry
  | .nil => []
  | .cons n rb fs ch rest =>
    (if pruneKeep excl (pathJoin cur n) then
      if isExcluded excl (pathJoin cur n) then []
      else if !rb then []
      else recAddDir (relJoin rel n) rb fs ch
     else [])
    ++ dirAdds excl cur rel rest

/-- The file loop of lines 176-203: exclusion check (line 181),
`os.access` (line 185), size cap (line 191), then the individual `tar.add`
(line 199, per-entry failure tolerated). -/
def fileAdds (excl : List String) (cur rel : String)
    (files : List FileNode) : List Entry :=
  files.filterMap fun f =>
    if isExcluded excl (pathJoin cur f.name) then none
    else if !f.readable then none
    else if f.size > FILE_SIZE_LIMIT then none
    else if !f.addOk then none
    else some (Entry.fileE (relJoin rel f.name) f.content)

/-- The `os.walk(source_path, followlinks=False)` traversal of
`create_tarball_with_progress` over the forest below the current root:
each subdirectory surviving the in-place pruning of lines 155-156 yields
its own triple (directory loop, then file loop), then its subtree,
depth-first; an unreadable directory yields nothing (its listing fails
silently under `onerror=None`). -/
def walkForest (excl : List String) (cur rel : String) : Forest → List Entry
  | .nil => []
  | .cons n rb fs ch rest =>
    (if pruneKeep excl (pathJoin cur n) && rb then
      dirAdds excl (pathJoin cur n) (relJoin rel n) ch
      ++ fileAdds excl (pathJoin cur n) (relJoin rel n) fs
      ++ walkForest excl (pathJoin cur n) (relJoin rel n) ch
     else [])
    ++ walkForest excl cur rel rest

/-- The complete member list written by the walk of
`create_tarball_with_progress` for source root `src`: the root's own triple
followed, depth-first, by the triples of every surviving subdirectory. -/
def walkEntries (excl : List String) (src : String) (t : DirTree) : List Entry :=
  dirAdds excl src "" t.children
  ++ fileAdds excl src "" t.files
  ++ walkForest excl src "" t.children

/-! ## The scanning pass (`scan_directory`) -/

/-- The totals accumulated by `scan_directory`: directory count, file count,
total size in bytes. -/
structure ScanTotals where
  dirCount : Nat
  fileCount : Nat
  totalSize : Nat
deriving DecidableEq, Repr

instance : Add ScanTotals :=
  ⟨fun a b => ⟨a.dirCount + b.dirCount, a.fileCount + b.fileCount,
    a.totalSize + b.totalSize⟩⟩

/-- The file loop of `scan_directory` (lines 118-131): every existing file
not caught by the `startswith` scan against the *global* `EXCLUDE_DIRS`
(line 122) contributes to the counts.  (`os.path.getsize` failures, skipped
with a warning, are folded into the model's assumption that sizes are
readable.) -/
def scanFiles (cur : String) (files : List FileNode) : ScanTotals :=
  files.foldl
    (fun acc f =>
      if scanFileExcluded EXCLUDE_DIRS (pathJoin cur f.name) then acc
      else ⟨acc.dirCount, acc.fileCount + 1, acc.totalSize + f.size⟩)
    ⟨0, 0, 0⟩

/-- The `os.walk` loop of `scan_directory` over the forest below the current
root.  Pruning (lines 113-114) uses the *global* `EXCLUDE_DIRS` — the
exclusion set is not a parameter of `scan_directory`.  Each subdirectory
surviving the pruning contributes one to `dir_count` (line 116, at its
parent's triple, with no access check) and, when readable, its own triple's
files and subtree; an unreadable directory yields no triple of its own. -/
def scanForest (cur : String) : Forest → ScanTotals
  | .nil => ⟨0, 0, 0⟩
  | .cons n rb fs ch rest =>
    (if pruneKeep EXCLUDE_DIRS (pathJoin cur n) then
      (⟨1, 0, 0⟩ : ScanTotals)
      + (if rb then
          scanFiles (pathJoin cur n) fs + scanForest (pathJoin cur n) ch
        else ⟨0, 0, 0⟩)
    else ⟨0, 0, 0⟩)
    + scanForest cur rest

/-- Models `scan_directory(path)`: totals for the root's own triple plus the
surviving subtrees.  A nonexistent root (`none`) makes `os.walk` yield
nothing, so the totals are zero. -/
def scanDirectory (src : String) : Option DirTree → ScanTotals
  | none => ⟨0, 0, 0⟩
  | some t => scanFiles src t.files + scanForest src t.children

/-! ## The archive builder (`create_tarball_with_progress`) -/

/-- A fatal error striking the builder, with the underlying cause text:
opening the temporary archive stream fails (line 149), the tar stream
itself fails (`tarfile.TarError`, e.g. the compressed stream cannot be
flushed on close), or the final `os.rename` fails (line 205).  Per-entry
`tar.add` failures are *not* fatal — the loops catch them (lines 172, 202)
— and are modelled by `FileNode.addOk`. -/
inductive Fatal where
  | openErr (cause : String)
  | tarErr (cause : String)
  | renameErr (cause : String)
deriving DecidableEq, Repr

/-- The cause text carried by a fatal error. -/
def Fatal.cause : Fatal → String
  | .openErr c => c
  | .tarErr c => c
  | .renameErr c => c

/-- What the caller observes after `create_tarball_with_progress` returns:
the `(ok, message)` pair, the contents published at `dest_path` (as the
member list of the archive now stored there, `none` when no file exists
there), and whether `dest_path + ".tmp"` is still present. -/
structure BuildResult where
  ok : Bool
  msg : String
  dest : Option (List Entry)
  tmpPresent : Bool
deriving DecidableEq, Repr

/-- Models `create_tarball_with_progress(source_path, dest_path, exclude_dirs)`.
`troot` is the tree at `source_path` (`none` when the path does not exist —
the builder performs no existence check and `os.walk` then yields nothing);
`prevDest` is whatever was stored at `dest_path` before the call; `fatal`
injects at most one fatal error.  The walk writes into
`dest_path + ".tmp"` only; on success the temp file is renamed onto
`dest_path` (line 205); on any fatal error the handlers return
`(False, message-with-cause)` and the `finally` block (lines 214-218)
removes the temp file if it exists. -/
def createTarball (excl : List String) (src dst : String)
    (troot : Option DirTree) (prevDest : Option (List Entry))
    (fatal : Option Fatal) : BuildResult :=
  match fatal with
  | some (.openErr c) =>
      -- tarfile.open on the temp path raised: no temp file was created,
      -- dest is untouched, the generic handler reports the cause.
      ⟨false, "Failed to create tarball: " ++ c, prevDest, false⟩
  | some (.tarErr c) =>
      -- the tar stream failed mid-build: dest still holds its previous
      -- contents, the finally block removed the temp file.
      ⟨false, "Tarball creation error: " ++ c, prevDest, false⟩
  | some (.renameErr c) =>
      -- os.rename failed: dest untouched, temp file removed by finally.
      ⟨false, "Failed to create tarball: " ++ c, prevDest, false⟩
  | none =>
      let entries :=
        match troot with
        | none => []
        | some t => walkEntries excl src t
      ⟨true, "Tarball created at " ++ dst, some entries, false⟩

/-! ## Backup entry points -/

/-- A wall-clock timestamp at second granularity, as
`datetime.now().strftime("%Y%m%d-%H%M%S")` observes it. -/
structure Timestamp where
  year : Nat
  month : Nat
  day : Nat
  hour : Nat
  minute : Nat
  second : Nat
deriving DecidableEq, Repr

/-- The ranges `datetime.now()` can actually produce. -/
def Timestamp.valid (t : Timestamp) : Bool :=
  decide (t.year < 10000) && decide (1 ≤ t.month) && decide (t.month ≤ 12) &&
  decide (1 ≤ t.day) && decide (t.day ≤ 31) && decide (t.hour ≤ 23) &&
  decide (t.minute ≤ 59) && decide (t.second ≤ 59)

/-- The character for a decimal digit. -/
def digitChar (n : Nat) : Char := Char.ofNat (48 + n)

/-- Two-digit zero-padded decimal rendering (strftime `%m`, `%d`, `%H`,
`%M`, `%S`). -/
def pad2 (n : Nat) : String := ⟨[digitChar (n / 10), digitChar (n % 10)]⟩

/-- Four-digit zero-padded decimal rendering (strftime `%Y`). -/
def pad4 (n : Nat) : String :=
  ⟨[digitChar (n / 1000), digitChar (n / 100 % 10), digitChar (n / 10 % 10),
    digitChar (n % 10)]⟩

/-- Models `strftime("%Y%m%d-%H%M%S")`. -/
def fmtTimestamp (t : Timestamp) : String :=
  pad4 t.year ++ pad2 t.month ++ pad2 t.day ++ "-" ++ pad2 t.hour ++
    pad2 t.minute ++ pad2 t.second

/-- The archive file name both entry points build:
`f"{subject}_{timestamp}.tar.gz"` with subject `full_system`
(line 225) or `os.path.basename(directory)` (line 246). -/
def backupName (subject : String) (t : Timestamp) : String :=
  subject ++ "_" ++ fmtTimestamp t ++ ".tar.gz"

/-- One backup invocation: an invocation index (distinguishing separate
calls) together with the subject and the wall-clock second at which the
name was computed. -/
structure Invocation where
  idx : Nat
  subject : String
  ts : Timestamp
deriving DecidableEq, Repr

/-- The archive name an invocation produces. -/
def Invocation.name (i : Invocation) : String := backupName i.subject i.ts

/-- Models `specific_directory_backup(directory)`: fail fast when the directory
does not exist (line 242, before any scan or archive work); otherwise
delegate to the builder with *no* `exclude_dirs` argument (line 250, so the
builder's exclusion set is empty).  The third component records whether the
builder was invoked at all. -/
def specificDirectoryBackup (directory : String) (troot : Option DirTree)
    (prevDest : Option (List Entry)) (fatal : Option Fatal)
    (basename : String) (ts : Timestamp) : (Bool × String) × Bool :=
  match troot with
  | none => ((false, "Directory does not exist: " ++ directory), false)
  | some t =>
      let dst := pathJoin BACKUP_DIR (backupName basename ts)
      let r := createTarball [] directory dst (some t) prevDest fatal
      if r.ok then
        ((true, "Specific directory backup completed to " ++ dst), true)
      else
        ((false, "Specific directory backup failed: " ++ r.msg), true)

/-! ## Restore (`restore_backup`) -/

/-- The files materialized by `restore_backup(backup_file, restore_path)`:
each file member is extracted to `os.path.join(restore_path, member.name)`
with its recorded bytes; directory members create directories.  (Per-member
extraction failures are logged and skipped — line 284 — which can only
shrink this set.) -/
def restoreFiles (entries : List Entry) (restorePath : String) :
    List (String × List Nat) :=
  entries.filterMap fun e =>
    match e with
    | .fileE rel c => some (pathJoin restorePath rel, c)
    | .dirE _ => none

/-- Every file in a forest, indexed by its path relative to the tree's
root, with no filtering whatsoever — the reference the round-trip law
compares against. -/
def allFilesForest (rel : String) : Forest → List (String × FileNode)
  | .nil => []
  | .cons n _ fs ch rest =>
    (fs.map fun f => (relJoin (relJoin rel n) f.name, f))
    ++ allFilesForest (relJoin rel n) ch
    ++ allFilesForest rel rest

/-- All files of a tree with their relative paths. -/
def allFiles (t : DirTree) : List (String × FileNode) :=
  (t.files.map fun f => (f.name, f)) ++ allFilesForest "" t.children

/-- Every subdirectory name directly below the root is excluded. -/
def forestTopExcluded (excl : List String) (src : String) : Forest → Bool
  | .nil => true
  | .cons n _ _ _ rest =>
    isExcluded excl (pathJoin src n) && forestTopExcluded excl src rest

/-- Every immediate child of the root — subdirectory or file — is matched
by the exclusion set (the formal reading of a source tree whose contents
the exclusion set entirely matches). -/
def allTopExcluded (excl : List String) (src : String) (t : DirTree) : Bool :=
  forestTopExcluded excl src t.children &&
  t.files.all fun f => isExcluded excl (pathJoin src f.name)

/-! ## Configuration loading (`load_config`) -/

/-- A JSON value, as `json.load` returns it. -/
inductive JVal where
  | null
  | jbool (b : Bool)
  | jnum (n : Int)
  | jstr (s : String)
  | jarr (xs : List JVal)
  | jobj (fields : List (String × JVal))
deriving Repr

/-- The on-disk state of `CONFIG_FILE`: absent, present but not valid JSON,
or present and parsing to a value. -/
inductive FileState where
  | absent
  | unparseable (raw : String)
  | parsed (v : JVal)
deriving Repr

/-- Constant `DEFAULT_CONFIG` (lines 21-27) as the JSON object `save_config` writes. -/
def defaultConfigJson : JVal :=
  .jobj [("auto_backup_enabled", .jbool false),
         ("backup_type", .jstr "specific"),
         ("specific_dir", .jstr "/home/user"),
         ("frequency", .jstr "daily"),
         ("time", .jstr "00:00")]

/-- Whether a JSON value is a structurally complete configuration record:
an object carrying every key of `DEFAULT_CONFIG`. -/
def structurallyComplete (v : JVal) : Bool :=
  match v with
  | .jobj fields =>
      ["auto_backup_enabled", "backup_type", "specific_dir", "frequency",
       "time"].all fun k => fields.any fun kv => kv.1 == k
  | _ => false

/-- A Python exception escaping the `open`/`json.load` pair inside
`load_config`. -/
inductive PyErr where
  | jsonDecodeError (msg : String)
  | ioError (msg : String)
deriving Repr

/-- The body of the `try` block of `load_config` (lines 80-81):
`open(CONFIG_FILE)` followed by `json.load`. -/
def tryLoad : FileState → Except PyErr JVal
  | .absent => .error (.ioError "No such file or directory")
  | .unparseable raw => .error (.jsonDecodeError ("Expecting value: " ++ raw))
  | .parsed v => .ok v

/-- Models `load_config()` (lines 74-87): if the file does not exist, write the
defaults (`save_config(DEFAULT_CONFIG)`, modelled as succeeding); then
`open` + `json.load`, returning the default configuration on
`JSONDecodeError` (line 84) or on any other exception (line 87).  The
result pairs the returned value with the file state after the call. -/
def loadConfig (fs : FileState) : JVal × FileState :=
  let fs1 :=
    match fs with
    | .absent => .parsed defaultConfigJson
    | other => other
  match tryLoad fs1 with
  | .ok v => (v, fs1)
  | .error (.jsonDecodeError _) => (defaultConfigJson, fs1)
  | .error (.ioError _) => (defaultConfigJson, fs1)

/-! ## The auto-backup scheduler (`auto_backup_scheduler`) -/

/-- The configuration fields `auto_backup_scheduler` reads
(`config.get(...)`, lines 504-507). -/
structure BackupConfig where
  auto_backup_enabled : Bool
  backup_type : String
  specific_dir : String
  frequency : String
  time : String
deriving DecidableEq, Repr

def isDigitCh (c : Char) : Bool := 48 ≤ c.toNat && c.toNat ≤ 57

/-- The remainders after matching strftime directive `%H` — the regex
alternation `2[0-3] | [0-1]\d | \d`, in that order (CPython `_strptime`). -/
def hourRests : List Char → List (List Char)
  | [] => []
  | [a] => if isDigitCh a then [[]] else []
  | a :: b :: rest =>
    (if (a == '2' && (48 ≤ b.toNat && b.toNat ≤ 51)) ||
        ((a == '0' || a == '1') && isDigitCh b) then [rest] else [])
    ++ (if isDigitCh a then [b :: rest] else [])

/-- The remainders after matching `%M` — the alternation `[0-5]\d | \d`. -/
def minuteRests : List Char → List (List Char)
  | [] => []
  | [a] => if isDigitCh a then [[]] else []
  | a :: b :: rest =>
    (if (48 ≤ a.toNat && a.toNat ≤ 53) && isDigitCh b then [rest] else [])
    ++ (if isDigitCh a then [b :: rest] else [])

/-- Models `time.strptime(backup_time, "%H:%M")` succeeding (lines 519-523):
the whole string must match `%H`, a literal colon, then `%M`, with
backtracking across the alternations and no unconverted data left. -/
def validTime (s : String) : Bool :=
  (hourRests s.data).any fun r =>
    match r with
    | ':' :: r2 => (minuteRests r2).any List.isEmpty
    | _ => false

/-- The validation block of `auto_backup_scheduler` (lines 510-523):
`backup_type ∈ {full, specific}`; for `specific`, a non-empty directory
that exists (`os.path.isdir`, supplied as the oracle `isdir`);
`frequency ∈ {daily, weekly, monthly}`; `time` accepted by
`strptime("%H:%M")`. -/
def validateConfig (isdir : String → Bool) (cfg : BackupConfig) : Bool :=
  (cfg.backup_type == "full" || cfg.backup_type == "specific") &&
  (!(cfg.backup_type == "specific") ||
    (!(cfg.specific_dir == "") && isdir cfg.specific_dir)) &&
  (cfg.frequency == "daily" || cfg.frequency == "weekly" ||
    cfg.frequency == "monthly") &&
  validTime cfg.time

/-- The primitive effects `auto_backup_scheduler` performs on the
process-wide scheduler state, in program order. -/
inductive SchedEv where
  | signalStop
  | joinRunner (exited : Bool)
  | clearStopEvent
  | clearJobs
  | installTrigger (frequency : String) (timeOfDay : String)
  | startRunner
deriving DecidableEq, Repr

/-- The process-wide scheduler state: how many background runner threads
are alive, the `schedule` library's job table, and the stop event flag. -/
structure SchedulerState where
  aliveRunners : Nat
  jobs : List (String × String)
  stopEvent : Bool
deriving DecidableEq, Repr

/-- The effect of one primitive event on the scheduler state.
`joinRunner true` models `join(timeout=5)` observing the thread exit;
`joinRunner false` models the bounded wait expiring with the thread still
alive (line 487, warning logged, the function proceeds anyway). -/
def stepEv (st : SchedulerState) : SchedEv → SchedulerState
  | .signalStop => { st with stopEvent := true }
  | .joinRunner exited =>
      if exited then { st with aliveRunners := st.aliveRunners - 1 } else st
  | .clearStopEvent => { st with stopEvent := false }
  | .clearJobs => { st with jobs := [] }
  | .installTrigger f t => { st with jobs := st.jobs ++ [(f, t)] }
  | .startRunner => { st with aliveRunners := st.aliveRunners + 1 }

/-- The event sequence one `auto_backup_scheduler(config)` call performs,
translated from lines 483-562: stop-and-join any live runner first;
clear the stop event; `schedule.clear()`; then, only when enabled and
valid, register exactly one trigger and start a new runner — unless the
old runner is still alive (line 555 re-checks `is_alive()`), in which case
no new thread is created. -/
def configureEvents (isdir : String → Bool) (cfg : BackupConfig)
    (joinExits : Bool) (st : SchedulerState) : List SchedEv :=
  let stopPhase :=
    if st.aliveRunners > 0 then [SchedEv.signalStop, SchedEv.joinRunner joinExits]
    else []
  let aliveMid :=
    if st.aliveRunners > 0 && joinExits then st.aliveRunners - 1
    else st.aliveRunners
  stopPhase ++ [SchedEv.clearStopEvent, SchedEv.clearJobs] ++
    (if !cfg.auto_backup_enabled then []
     else if !validateConfig isdir cfg then []
     else [SchedEv.installTrigger cfg.frequency cfg.time] ++
       (if aliveMid > 0 then [] else [SchedEv.startRunner]))

/-- Models `auto_backup_scheduler(config)`: the returned boolean (`False` when
disabled or invalid, `True` when a trigger is active) and the scheduler
state after all effects ran. -/
def autoBackupScheduler (isdir : String → Bool) (cfg : BackupConfig)
    (joinExits : Bool) (st : SchedulerState) : Bool × SchedulerState :=
  (cfg.auto_backup_enabled && validateConfig isdir cfg,
   (configureEvents isdir cfg joinExits st).foldl stepEv st)

/-- Every prefix of an event run keeps the number of live runner threads
at most one (computed left to right so that intermediate states are
inspected, not just the final one). -/
def runBounded (st : SchedulerState) : List SchedEv → Bool
  | [] => decide (st.aliveRunners ≤ 1)
  | e :: es => decide (st.aliveRunners ≤ 1) && runBounded (stepEv st e) es

/-- In left-to-right program order, some join of the previous runner occurs
before any trigger installation. -/
def joinBeforeInstall : List SchedEv → Bool
  | [] => true
  | .installTrigger _ _ :: _ => false
  | .joinRunner _ :: _ => true
  | _ :: es => joinBeforeInstall es

/-- One reconfiguration request: the `os.path.isdir` oracle, the
configuration read by `load_config`, and whether the old runner exits
within the bounded join. -/
structure ConfigureInput where
  isdir : String → Bool
  cfg : BackupConfig
  joinExits : Bool

/-- A sequence of reconfigurations applied to the scheduler state. -/
def runConfigures (st : SchedulerState) : List ConfigureInput → SchedulerState
  | [] => st
  | i :: is => runConfigures (autoBackupScheduler i.isdir i.cfg i.joinExits st).2 is

/-! ## Helper lemmas -/

theorem listPre_refl (l : List Char) : listPre l l = true := by
  induction l with
  | nil => rfl
  | cons a as ih => simp [listPre, ih]

theorem listPre_append (a b c : List Char) (h : listPre a b = true) :
    listPre a (b ++ c) = true := by
  induction a generalizing b with
  | nil => rfl
  | cons x xs ih =>
    cases b with
    | nil => simp [listPre] at h
    | cons y ys =>
      simp [listPre] at h ⊢
      exact ⟨h.1, ih ys h.2⟩

theorem data_append (a b : String) : (a ++ b).data = a.data ++ b.data := by
  cases a; cases b; rfl

theorem startswith_refl (s : String) : startswith s s = true :=
  listPre_refl s.data

theorem startswith_append (s t : String) : startswith (s ++ t) s = true := by
  unfold startswith
  rw [data_append]
  exact listPre_append s.data s.data t.data (listPre_refl s.data)

theorem startswith_extend {p e : String} (h : startswith p e = true)
    (q : String) : startswith (p ++ q) e = true := by
  unfold startswith at h ⊢
  rw [data_append]
  exact listPre_append _ _ _ h

theorem pruneKeep_eq_not_isExcluded (excl : List String) (p : String) :
    pruneKeep excl p = !(isExcluded excl p) := by
  simp [pruneKeep, isExcluded]

theorem scanFileExcluded_eq_isExcluded (excl : List String) (p : String) :
    scanFileExcluded excl p = isExcluded excl p := by
  unfold scanFileExcluded isExcluded
  cases hc : excl.contains p with
  | false => simp
  | true =>
    simp only [Bool.true_or]
    have hp : p ∈ excl := by
      simpa using hc
    have : excl.any (fun e => startswith p e) = true :=
      List.any_eq_true.mpr ⟨p, hp, startswith_refl p⟩
    simp [this]

theorem isExcluded_pathJoin {excl : List String} {src : String}
    (h : isExcluded excl src = true) (b : String) :
    isExcluded excl (pathJoin src b) = true := by
  unfold isExcluded at h ⊢
  have key : ∃ e ∈ excl, startswith (pathJoin src b) e = true := by
    cases hc : excl.contains src with
    | true =>
      have hp : src ∈ excl := by simpa using hc
      refine ⟨src, hp, ?_⟩
      unfold pathJoin
      exact startswith_extend (startswith_append src "/") b
    | false =>
      have ha : excl.any (fun e => startswith src e) = true := by
        rw [hc] at h
        simpa using h
      obtain ⟨e, he, hs⟩ := List.any_eq_true.mp ha
      refine ⟨e, he, ?_⟩
      unfold pathJoin
      exact startswith_extend (startswith_extend hs "/") b
  have hany : excl.any (fun e => startswith (pathJoin src b) e) = true :=
    List.any_eq_true.mpr key
  simp [hany]

theorem dirAdds_nil (excl : List String) (cur rel : String) (f : Forest)
    (h : forestTopExcluded excl cur f = true) :
    dirAdds excl cur rel f = [] := by
  induction f with
  | nil => rfl
  | cons n rb fs ch rest ihc ihr =>
    simp only [forestTopExcluded, Bool.and_eq_true] at h
    simp [dirAdds, pruneKeep_eq_not_isExcluded, h.1, ihr h.2]

theorem walkForest_nil (excl : List String) (cur rel : String) (f : Forest)
    (h : forestTopExcluded excl cur f = true) :
    walkForest excl cur rel f = [] := by
  induction f with
  | nil => rfl
  | cons n rb fs ch rest ihc ihr =>
    simp only [forestTopExcluded, Bool.and_eq_true] at h
    simp [walkForest, pruneKeep_eq_not_isExcluded, h.1, ihr h.2]

theorem fileAdds_nil (excl : List String) (cur rel : String)
    (files : List FileNode)
    (h : files.all (fun f => isExcluded excl (pathJoin cur f.name)) = true) :
    fileAdds excl cur rel files = [] := by
  unfold fileAdds
  rw [List.filterMap_eq_nil_iff]
  intro a ha
  have hx : isExcluded excl (pathJoin cur a.name) = true := by
    rw [List.all_eq_true] at h
    simpa using h a ha
  simp [hx]

theorem forestTopExcluded_of_root {excl : List String} {src : String}
    (h : isExcluded excl src = true) :
    ∀ f : Forest, forestTopExcluded excl src f = true
  | .nil => rfl
  | .cons n rb fs ch rest => by
    simp [forestTopExcluded, isExcluded_pathJoin h n,
      forestTopExcluded_of_root h rest]

/-! ## Claim theorems -/

/-- C8: a source tree whose contents are entirely matched by the exclusion
set — in particular when the root itself is excluded, which excludes every
descendant under the raw-prefix test — produces an archive with no members,
and the build returns success with the empty archive published at the
destination. -/
theorem fully_excluded_tree_empty_archive (excl : List String)
    (src dst : String) (t : DirTree) (prev : Option (List Entry))
    (h : isExcluded excl src = true ∨ allTopExcluded excl src t = true) :
    walkEntries excl src t = [] ∧
    createTarball excl src dst (some t) prev none =
      ⟨true, "Tarball created at " ++ dst, some [], false⟩ := by
  have htop : allTopExcluded excl src t = true := by
    rcases h with h | h
    · unfold allTopExcluded
      rw [forestTopExcluded_of_root h t.children]
      simp only [Bool.true_and, List.all_eq_true]
      intro f _
      simp [isExcluded_pathJoin h f.name]
    · exact h
  have hparts : forestTopExcluded excl src t.children = true ∧
      t.files.all (fun f => isExcluded excl (pathJoin src f.name)) = true := by
    simpa [allTopExcluded] using htop
  have hw : walkEntries excl src t = [] := by
    unfold walkEntries
    rw [dirAdds_nil _ _ _ _ hparts.1, fileAdds_nil _ _ _ _ hparts.2,
      walkForest_nil _ _ _ _ hparts.1]
    rfl
  refine ⟨hw, ?_⟩
  simp [createTarball, hw]

/-- C8 witness: the excluded-root edge case at a concrete tree containing a
file and a subdirectory. -/
theorem fully_excluded_tree_witness :
    (isExcluded ["/data"] "/data" = true ∨
      allTopExcluded ["/data"] "/data"
        ⟨[⟨"f.txt", 1, [0], true, true⟩], .cons "sub" true [] .nil .nil⟩ = true) ∧
    walkEntries ["/data"] "/data"
      ⟨[⟨"f.txt", 1, [0], true, true⟩], .cons "sub" true [] .nil .nil⟩ = [] ∧
    createTarball ["/data"] "/data" "/out.tar.gz"
      (some ⟨[⟨"f.txt", 1, [0], true, true⟩], .cons "sub" true [] .nil .nil⟩)
      none none =
      ⟨true, "Tarball created at " ++ "/out.tar.gz", some [], false⟩ :=
  ⟨Or.inl (by decide),
    fully_excluded_tree_empty_archive ["/data"] "/data" "/out.tar.gz"
      ⟨[⟨"f.txt", 1, [0], true, true⟩], .cons "sub" true [] .nil .nil⟩
      none (Or.inl (by decide))⟩

/-- C1: the exclusion test of the source is a raw `str.startswith` on
normalized paths, so the sibling path `/var/logs` IS excluded by the entry
`/var/log`, while the specified segment-wise test rejects it.  This theorem
evaluates the code's test at the failing input, exhibiting the divergence
between the code (`isExcluded`) and the specified behaviour
(`isExcludedSpec`). -/
theorem exclusion_rawstring_divergence :
    isExcluded ["/var/log"] "/var/logs" = true ∧
    isExcludedSpec ["/var/log"] "/var/logs" = false ∧
    isExcluded ["/var/log"] "/var/log/syslog" = isExcludedSpec ["/var/log"] "/var/log/syslog" ∧
    isExcluded ["/var/log"] "/var/log" = isExcludedSpec ["/var/log"] "/var/log" := by
  refine ⟨by decide, by decide, by decide, by decide⟩

/-- C4 counterexample: the scanning pass hardcodes the global
`EXCLUDE_DIRS` while a specific-directory archive pass runs with an empty
exclusion set, so the two passes disagree: scanning `/var` counts nothing
(the subdirectory `log` is pruned as excluded), yet the archive pass
includes the directory `log` and its file. -/
theorem scan_archive_disagree_on_var_log :
    scanDirectory "/var"
      (some ⟨[], .cons "log" true [⟨"syslog", 10, [1], true, true⟩] .nil .nil⟩)
      = ⟨0, 0, 0⟩ ∧
    Entry.fileE "log/syslog" [1] ∈
      walkEntries [] "/var"
        ⟨[], .cons "log" true [⟨"syslog", 10, [1], true, true⟩] .nil .nil⟩ := by
  refine ⟨by decide, by decide⟩

/-- C4 amended: the two passes implement the same per-path exclusion
decision whenever they are given the same exclusion set — the scan's
file test (which omits the membership check) coincides with the builder's
test, and both passes prune with the complement of that test.  The scan,
however, always applies the global `EXCLUDE_DIRS`, so the passes agree
for the full-system invocation (whose builder set is `EXCLUDE_DIRS`) but
can disagree for specific-directory backups (whose builder set is empty). -/
theorem scan_and_archive_same_predicate (excl : List String) (p : String) :
    scanFileExcluded excl p = isExcluded excl p ∧
    pruneKeep excl p = !(isExcluded excl p) :=
  ⟨scanFileExcluded_eq_isExcluded excl p, pruneKeep_eq_not_isExcluded excl p⟩

/-- C3 counterexample: the builder performs no existence check on its root;
with a nonexistent source path the walk yields nothing and the builder
succeeds, publishing an empty archive at the destination — it does not
fail fast. -/
theorem nonexistent_root_build_succeeds :
    (createTarball [] "/missing/root" "/dest.tar.gz" none none none).ok = true ∧
    (createTarball [] "/missing/root" "/dest.tar.gz" none none none).dest
      = some [] := by
  refine ⟨rfl, rfl⟩

/-- C3 amended: the nonexistent-root check lives in
`specific_directory_backup`, which fails fast with a descriptive error
before the builder (and hence any scan or temp file) is ever invoked; the
builder itself, handed a nonexistent root, scans nothing and successfully
produces an empty archive. -/
theorem nonexistent_dir_fails_fast :
    (∀ (dir : String) (prev : Option (List Entry)) (fatal : Option Fatal)
        (bn : String) (ts : Timestamp),
      specificDirectoryBackup dir none prev fatal bn ts =
        ((false, "Directory does not exist: " ++ dir), false)) ∧
    (∀ (excl : List String) (src dst : String) (prev : Option (List Entry)),
      createTarball excl src dst none prev none =
        ⟨true, "Tarball created at " ++ dst, some [], false⟩) :=
  ⟨fun _ _ _ _ _ => rfl, fun _ _ _ _ => rfl⟩

/-- C10 counterexample: a configuration file holding the well-formed JSON
text `{}` parses successfully, and `load_config` returns the parsed empty
object verbatim — a structurally incomplete configuration record. -/
theorem loadConfig_incomplete_record :
    structurallyComplete (loadConfig (.parsed (.jobj []))).1 = false ∧
    structurallyComplete defaultConfigJson = true := by
  refine ⟨rfl, rfl⟩

/-- C10 amended: `load_config` is total at the public interface — every
branch returns instead of raising; an absent file is synthesized with the
(structurally complete) defaults; an unparseable file yields the default
configuration and the file on disk is not modified; a parseable file is
returned verbatim, which need not be structurally complete. -/
theorem loadConfig_total_behaviour :
    loadConfig .absent = (defaultConfigJson, .parsed defaultConfigJson) ∧
    structurallyComplete defaultConfigJson = true ∧
    (∀ raw, loadConfig (.unparseable raw) = (defaultConfigJson, .unparseable raw)) ∧
    (∀ v, loadConfig (.parsed v) = (v, .parsed v)) :=
  ⟨rfl, rfl, fun _ => rfl, fun _ => rfl⟩

theorem data_mk (l : List Char) : (String.mk l).data = l := rfl

theorem dash_data : ("-" : String).data = ['-'] := rfl

theorem underscore_data : ("_" : String).data = ['_'] := rfl

theorem str_ext {a b : String} (h : a.data = b.data) : a = b :=
  congrArg String.mk h

theorem digitChar_inj : ∀ a, a < 10 → ∀ b, b < 10 →
    digitChar a = digitChar b → a = b := by decide

theorem fmtTimestamp_inj {t1 t2 : Timestamp} (hv1 : t1.valid = true)
    (hv2 : t2.valid = true) (h : fmtTimestamp t1 = fmtTimestamp t2) :
    t1 = t2 := by
  obtain ⟨y1, mo1, d1, hh1, mi1, s1⟩ := t1
  obtain ⟨y2, mo2, d2, hh2, mi2, s2⟩ := t2
  simp only [Timestamp.valid, Bool.and_eq_true, decide_eq_true_eq] at hv1 hv2
  have hd := congrArg String.data h
  simp only [fmtTimestamp, pad4, pad2, data_append, data_mk, dash_data,
    List.cons_append, List.nil_append, List.cons.injEq, and_true] at hd
  simp only [Timestamp.mk.injEq]
  refine ⟨?_, ?_, ?_, ?_, ?_, ?_⟩
  · have e1 := digitChar_inj (y1 / 1000) (by omega) (y2 / 1000) (by omega) hd.1
    have e2 := digitChar_inj (y1 / 100 % 10) (by omega) (y2 / 100 % 10)
      (by omega) hd.2.1
    have e3 := digitChar_inj (y1 / 10 % 10) (by omega) (y2 / 10 % 10)
      (by omega) hd.2.2.1
    have e4 := digitChar_inj (y1 % 10) (by omega) (y2 % 10) (by omega)
      hd.2.2.2.1
    omega
  · have e1 := digitChar_inj (mo1 / 10) (by omega) (mo2 / 10) (by omega)
      hd.2.2.2.2.1
    have e2 := digitChar_inj (mo1 % 10) (by omega) (mo2 % 10) (by omega)
      hd.2.2.2.2.2.1
    omega
  · have e1 := digitChar_inj (d1 / 10) (by omega) (d2 / 10) (by omega)
      hd.2.2.2.2.2.2.1
    have e2 := digitChar_inj (d1 % 10) (by omega) (d2 % 10) (by omega)
      hd.2.2.2.2.2.2.2.1
    omega
  · have e1 := digitChar_inj (hh1 / 10) (by omega) (hh2 / 10) (by omega)
      hd.2.2.2.2.2.2.2.2.2.1
    have e2 := digitChar_inj (hh1 % 10) (by omega) (hh2 % 10) (by omega)
      hd.2.2.2.2.2.2.2.2.2.2.1
    omega
  · have e1 := digitChar_inj (mi1 / 10) (by omega) (mi2 / 10) (by omega)
      hd.2.2.2.2.2.2.2.2.2.2.2.1
    have e2 := digitChar_inj (mi1 % 10) (by omega) (mi2 % 10) (by omega)
      hd.2.2.2.2.2.2.2.2.2.2.2.2.1
    omega
  · have e1 := digitChar_inj (s1 / 10) (by omega) (s2 / 10) (by omega)
      hd.2.2.2.2.2.2.2.2.2.2.2.2.2.1
    have e2 := digitChar_inj (s1 % 10) (by omega) (s2 % 10) (by omega)
      hd.2.2.2.2.2.2.2.2.2.2.2.2.2.2
    omega

theorem fmt_data_length (t : Timestamp) : (fmtTimestamp t).data.length = 15 := by
  simp [fmtTimestamp, pad4, pad2, data_append, data_mk, dash_data]

theorem fmt_length (t : Timestamp) : (fmtTimestamp t).length = 15 :=
  fmt_data_length t

/-- C9 counterexample: two distinct backup invocations that observe the
same wall-clock second produce the identical archive name — second-level
timestamps do not prevent collision within one second. -/
theorem same_second_invocations_collide :
    Invocation.name ⟨0, "full_system", ⟨2026, 10, 12, 9, 30, 0⟩⟩ =
      Invocation.name ⟨1, "full_system", ⟨2026, 10, 12, 9, 30, 0⟩⟩ ∧
    (⟨0, "full_system", ⟨2026, 10, 12, 9, 30, 0⟩⟩ : Invocation) ≠
      ⟨1, "full_system", ⟨2026, 10, 12, 9, 30, 0⟩⟩ := by
  refine ⟨rfl, by decide⟩

/-- C9 amended: archive names collide only when both the subject and the
second-granularity timestamp coincide — equal names force equal subjects
and equal timestamps, so invocations observing distinct seconds (or
distinct subjects) never collide. -/
theorem backup_names_collide_only_same_subject_second
    (s1 s2 : String) (t1 t2 : Timestamp)
    (hv1 : t1.valid = true) (hv2 : t2.valid = true)
    (h : backupName s1 t1 = backupName s2 t2) : s1 = s2 ∧ t1 = t2 := by
  have hd := congrArg String.data h
  simp only [backupName, data_append, List.append_assoc] at hd
  have hlen : (("_" : String).data ++ ((fmtTimestamp t1).data ++
      (".tar.gz" : String).data)).length =
      (("_" : String).data ++ ((fmtTimestamp t2).data ++
      (".tar.gz" : String).data)).length := by
    simp [fmt_data_length, fmt_length]
  obtain ⟨hs, hr⟩ := List.append_inj' hd hlen
  refine ⟨str_ext hs, ?_⟩
  simp only [underscore_data, List.cons_append, List.nil_append,
    List.cons.injEq, true_and] at hr
  obtain ⟨hf, -⟩ := List.append_inj' hr rfl
  exact fmtTimestamp_inj hv1 hv2 (str_ext hf)

/-- C9 witness: the amended collision characterization applied at a
concrete valid timestamp. -/
theorem backup_names_collide_witness :
    (⟨2026, 10, 12, 9, 30, 0⟩ : Timestamp).valid = true ∧
    ("home" = "home" ∧ (⟨2026, 10, 12, 9, 30, 0⟩ : Timestamp) =
      ⟨2026, 10, 12, 9, 30, 0⟩) :=
  ⟨by decide,
    backup_names_collide_only_same_subject_second "home" "home"
      ⟨2026, 10, 12, 9, 30, 0⟩ ⟨2026, 10, 12, 9, 30, 0⟩
      (by decide) (by decide) rfl⟩

/-- C2: the builder writes only into `destination + ".tmp"` and publishes by
rename, so after a successful build the destination holds the complete
member list of the walk and no temp file remains; after any fatal error the
destination still holds exactly what it held before the call, the temp file
is gone, and the returned message embeds the underlying cause. -/
theorem build_atomic_publication :
    (∀ (excl : List String) (src dst : String) (t : DirTree)
        (prev : Option (List Entry)),
      createTarball excl src dst (some t) prev none =
        ⟨true, "Tarball created at " ++ dst, some (walkEntries excl src t),
          false⟩) ∧
    (∀ (excl : List String) (src dst : String) (troot : Option DirTree)
        (prev : Option (List Entry)) (f : Fatal),
      (createTarball excl src dst troot prev (some f)).ok = false ∧
      (createTarball excl src dst troot prev (some f)).dest = prev ∧
      (createTarball excl src dst troot prev (some f)).tmpPresent = false ∧
      ∃ a b, (createTarball excl src dst troot prev (some f)).msg =
        a ++ f.cause ++ b) := by
  constructor
  · intro excl src dst t prev
    rfl
  · intro excl src dst troot prev f
    cases f with
    | openErr c =>
        exact ⟨rfl, rfl, rfl,
          ⟨"Failed to create tarball: ", "", by simp [createTarball, Fatal.cause]⟩⟩
    | tarErr c =>
        exact ⟨rfl, rfl, rfl,
          ⟨"Tarball creation error: ", "", by simp [createTarball, Fatal.cause]⟩⟩
    | renameErr c =>
        exact ⟨rfl, rfl, rfl,
          ⟨"Failed to create tarball: ", "", by simp [createTarball, Fatal.cause]⟩⟩


/-- C5: an invalid configuration — bad backup kind, specific kind with a
missing directory, bad frequency, or a time `strptime` rejects — makes
`auto_backup_scheduler` return failure with an empty job table, registers
no trigger and starts no runner thread, and any previously live runner was
already signalled and joined earlier in the same call. -/
theorem invalid_config_rejected (isdir : String → Bool) (cfg : BackupConfig)
    (joinExits : Bool) (st : SchedulerState)
    (h : validateConfig isdir cfg = false) :
    (autoBackupScheduler isdir cfg joinExits st).1 = false ∧
    (autoBackupScheduler isdir cfg joinExits st).2.jobs = [] ∧
    (∀ f t, SchedEv.installTrigger f t ∉ configureEvents isdir cfg joinExits st) ∧
    SchedEv.startRunner ∉ configureEvents isdir cfg joinExits st ∧
    (st.aliveRunners > 0 →
      SchedEv.signalStop ∈ configureEvents isdir cfg joinExits st ∧
      SchedEv.joinRunner joinExits ∈ configureEvents isdir cfg joinExits st) := by
  have hev : configureEvents isdir cfg joinExits st =
      (if st.aliveRunners > 0 then
        [SchedEv.signalStop, SchedEv.joinRunner joinExits] else [])
      ++ [SchedEv.clearStopEvent, SchedEv.clearJobs] := by
    cases henb : cfg.auto_backup_enabled <;>
      simp [configureEvents, h, henb]
  refine ⟨?_, ?_, ?_, ?_, ?_⟩
  · simp [autoBackupScheduler, h]
  · unfold autoBackupScheduler
    rw [hev]
    by_cases ha : st.aliveRunners > 0 <;>
      cases joinExits <;> simp [ha, stepEv]
  · intro f t
    rw [hev]
    by_cases ha : st.aliveRunners > 0 <;> simp [ha]
  · rw [hev]
    by_cases ha : st.aliveRunners > 0 <;> simp [ha]
  · intro ha
    rw [hev]
    simp [ha]

/-- C5 witness: the rejection applied at the invalid frequency
`fortnightly` with one previously live runner. -/
theorem invalid_config_rejected_witness :
    validateConfig (fun _ => true)
      ⟨true, "full", "/home/user", "fortnightly", "00:00"⟩ = false ∧
    ((autoBackupScheduler (fun _ => true)
        ⟨true, "full", "/home/user", "fortnightly", "00:00"⟩ true
        ⟨1, [("daily", "00:00")], false⟩).1 = false ∧
      (autoBackupScheduler (fun _ => true)
        ⟨true, "full", "/home/user", "fortnightly", "00:00"⟩ true
        ⟨1, [("daily", "00:00")], false⟩).2.jobs = [] ∧
      (∀ f t, SchedEv.installTrigger f t ∉ configureEvents (fun _ => true)
        ⟨true, "full", "/home/user", "fortnightly", "00:00"⟩ true
        ⟨1, [("daily", "00:00")], false⟩) ∧
      SchedEv.startRunner ∉ configureEvents (fun _ => true)
        ⟨true, "full", "/home/user", "fortnightly", "00:00"⟩ true
        ⟨1, [("daily", "00:00")], false⟩ ∧
      ((⟨1, [("daily", "00:00")], false⟩ : SchedulerState).aliveRunners > 0 →
        SchedEv.signalStop ∈ configureEvents (fun _ => true)
          ⟨true, "full", "/home/user", "fortnightly", "00:00"⟩ true
          ⟨1, [("daily", "00:00")], false⟩ ∧
        SchedEv.joinRunner true ∈ configureEvents (fun _ => true)
          ⟨true, "full", "/home/user", "fortnightly", "00:00"⟩ true
          ⟨1, [("daily", "00:00")], false⟩)) :=
  ⟨by decide,
    invalid_config_rejected (fun _ => true)
      ⟨true, "full", "/home/user", "fortnightly", "00:00"⟩ true
      ⟨1, [("daily", "00:00")], false⟩ (by decide)⟩


theorem configure_preserves_bound (isdir : String → Bool) (cfg : BackupConfig)
    (joinExits : Bool) (st : SchedulerState) (h1 : st.aliveRunners ≤ 1) :
    (autoBackupScheduler isdir cfg joinExits st).2.aliveRunners ≤ 1 ∧
    (autoBackupScheduler isdir cfg joinExits st).2.jobs.length ≤ 1 := by
  obtain ⟨a, jobs, ev⟩ := st
  simp only [SchedulerState.aliveRunners] at h1
  interval_cases a <;>
    cases henb : cfg.auto_backup_enabled <;>
    cases hv : validateConfig isdir cfg <;>
    cases joinExits <;>
      simp [configureEvents, autoBackupScheduler, stepEv, henb, hv]

theorem runBounded_of_configure (isdir : String → Bool) (cfg : BackupConfig)
    (joinExits : Bool) (st : SchedulerState) (h1 : st.aliveRunners ≤ 1) :
    runBounded st (configureEvents isdir cfg joinExits st) = true := by
  obtain ⟨a, jobs, ev⟩ := st
  simp only [SchedulerState.aliveRunners] at h1
  interval_cases a <;>
    cases henb : cfg.auto_backup_enabled <;>
    cases hv : validateConfig isdir cfg <;>
    cases joinExits <;>
      simp [configureEvents, runBounded, stepEv, henb, hv]

theorem joinBeforeInstall_of_configure (isdir : String → Bool)
    (cfg : BackupConfig) (joinExits : Bool) (st : SchedulerState)
    (h1 : st.aliveRunners = 1) :
    joinBeforeInstall (configureEvents isdir cfg joinExits st) = true := by
  obtain ⟨a, jobs, ev⟩ := st
  simp only [SchedulerState.aliveRunners] at h1
  subst h1
  cases henb : cfg.auto_backup_enabled <;>
    cases hv : validateConfig isdir cfg <;>
    cases joinExits <;>
      simp [configureEvents, joinBeforeInstall, henb, hv]

/-- C6: a reconfiguration signals and joins the previous runner (with the
bounded wait) before any trigger is installed; every intermediate state of
the call — not just the final one — has at most one live runner thread;
afterwards at most one trigger is registered; and the single-runner bound
is preserved across arbitrary sequences of reconfigurations. -/
theorem single_runner_no_duplicate_jobs (isdir : String → Bool)
    (cfg : BackupConfig) (joinExits : Bool) (st : SchedulerState)
    (h1 : st.aliveRunners ≤ 1) :
    runBounded st (configureEvents isdir cfg joinExits st) = true ∧
    (autoBackupScheduler isdir cfg joinExits st).2.aliveRunners ≤ 1 ∧
    (autoBackupScheduler isdir cfg joinExits st).2.jobs.length ≤ 1 ∧
    (st.aliveRunners = 1 →
      joinBeforeInstall (configureEvents isdir cfg joinExits st) = true) ∧
    (∀ (ins : List ConfigureInput) (st0 : SchedulerState),
      st0.aliveRunners ≤ 1 → (runConfigures st0 ins).aliveRunners ≤ 1) := by
  refine ⟨runBounded_of_configure _ _ _ _ h1,
    (configure_preserves_bound _ _ _ _ h1).1,
    (configure_preserves_bound _ _ _ _ h1).2,
    fun h => joinBeforeInstall_of_configure _ _ _ _ h, ?_⟩
  intro ins
  induction ins with
  | nil => exact fun st0 h0 => h0
  | cons i is ih =>
    intro st0 h0
    exact ih _ ((configure_preserves_bound i.isdir i.cfg i.joinExits st0 h0).1)

/-- C6 witness: the invariant applied at a concrete state with one live,
stuck runner (the bounded join times out) and a valid daily configuration. -/
theorem single_runner_witness :
    ((⟨1, [("daily", "00:00")], false⟩ : SchedulerState).aliveRunners ≤ 1) ∧
    (runBounded ⟨1, [("daily", "00:00")], false⟩
      (configureEvents (fun _ => true)
        ⟨true, "specific", "/home/user", "daily", "02:30"⟩ false
        ⟨1, [("daily", "00:00")], false⟩) = true ∧
    (autoBackupScheduler (fun _ => true)
      ⟨true, "specific", "/home/user", "daily", "02:30"⟩ false
      ⟨1, [("daily", "00:00")], false⟩).2.aliveRunners ≤ 1 ∧
    (autoBackupScheduler (fun _ => true)
      ⟨true, "specific", "/home/user", "daily", "02:30"⟩ false
      ⟨1, [("daily", "00:00")], false⟩).2.jobs.length ≤ 1 ∧
    ((⟨1, [("daily", "00:00")], false⟩ : SchedulerState).aliveRunners = 1 →
      joinBeforeInstall (configureEvents (fun _ => true)
        ⟨true, "specific", "/home/user", "daily", "02:30"⟩ false
        ⟨1, [("daily", "00:00")], false⟩) = true) ∧
    (∀ (ins : List ConfigureInput) (st0 : SchedulerState),
      st0.aliveRunners ≤ 1 → (runConfigures st0 ins).aliveRunners ≤ 1)) :=
  ⟨by decide,
    single_runner_no_duplicate_jobs (fun _ => true)
      ⟨true, "specific", "/home/user", "daily", "02:30"⟩ false
      ⟨1, [("daily", "00:00")], false⟩ (by decide)⟩


theorem tarFilesAdd_mem {rel r : String} {c : List Nat} {fs : List FileNode}
    (h : Entry.fileE r c ∈ tarFilesAdd rel fs) :
    ∃ f ∈ fs, r = relJoin rel f.name ∧ c = f.content := by
  unfold tarFilesAdd at h
  obtain ⟨f, hf, hsome⟩ := List.mem_filterMap.mp h
  split_ifs at hsome with h1
  simp at hsome
  exact ⟨f, hf, hsome.1.symm, hsome.2.symm⟩

theorem fileAdds_mem {excl : List String} {cur rel r : String} {c : List Nat}
    {fs : List FileNode} (h : Entry.fileE r c ∈ fileAdds excl cur rel fs) :
    ∃ f ∈ fs, r = relJoin rel f.name ∧ c = f.content := by
  unfold fileAdds at h
  obtain ⟨f, hf, hsome⟩ := List.mem_filterMap.mp h
  split_ifs at hsome
  simp at hsome
  exact ⟨f, hf, hsome.1.symm, hsome.2.symm⟩

theorem recAddForest_files {r : String} {c : List Nat} :
    ∀ (rel : String) (fo : Forest),
      Entry.fileE r c ∈ recAddForest rel fo →
      ∃ f : FileNode, (r, f) ∈ allFilesForest rel fo ∧ f.content = c
  | rel, .nil => by
    intro h
    simp [recAddForest] at h
  | rel, .cons n rb fs ch rest => by
    intro h
    rw [recAddForest] at h
    rcases List.mem_append.mp h with h1 | h2
    · rcases List.mem_cons.mp h1 with he | h1'
      · exact absurd he (by simp)
      · by_cases hrb : rb = true
        · rw [if_pos hrb] at h1'
          rcases List.mem_append.mp h1' with hta | hrec
          · obtain ⟨f, hf, hr, hc⟩ := tarFilesAdd_mem hta
            refine ⟨f, ?_, hc.symm⟩
            rw [allFilesForest]
            refine List.mem_append.mpr (Or.inl (List.mem_append.mpr (Or.inl ?_)))
            rw [hr]
            exact List.mem_map_of_mem _ hf
          · obtain ⟨f, hm, hc⟩ := recAddForest_files (relJoin rel n) ch hrec
            refine ⟨f, ?_, hc⟩
            rw [allFilesForest]
            exact List.mem_append.mpr (Or.inl (List.mem_append.mpr (Or.inr hm)))
        · rw [if_neg hrb] at h1'
          simp at h1'
    · obtain ⟨f, hm, hc⟩ := recAddForest_files rel rest h2
      refine ⟨f, ?_, hc⟩
      rw [allFilesForest]
      exact List.mem_append.mpr (Or.inr hm)

theorem dirAdds_files {excl : List String} {r : String} {c : List Nat} :
    ∀ (cur rel : String) (fo : Forest),
      Entry.fileE r c ∈ dirAdds excl cur rel fo →
      ∃ f : FileNode, (r, f) ∈ allFilesForest rel fo ∧ f.content = c
  | cur, rel, .nil => by
    intro h
    simp [dirAdds] at h
  | cur, rel, .cons n rb fs ch rest => by
    intro h
    rw [dirAdds] at h
    rcases List.mem_append.mp h with h1 | h2
    · split_ifs at h1 with hp hx hrb
      · simp at h1
      · simp at h1
      · unfold recAddDir at h1
        rcases List.mem_cons.mp h1 with he | h1'
        · exact absurd he (by simp)
        · rw [if_pos (by simpa using hrb)] at h1'
          rcases List.mem_append.mp h1' with hta | hrec
          · obtain ⟨f, hf, hr, hc⟩ := tarFilesAdd_mem hta
            refine ⟨f, ?_, hc.symm⟩
            rw [allFilesForest]
            refine List.mem_append.mpr (Or.inl (List.mem_append.mpr (Or.inl ?_)))
            rw [hr]
            exact List.mem_map_of_mem _ hf
          · obtain ⟨f, hm, hc⟩ := recAddForest_files (relJoin rel n) ch hrec
            refine ⟨f, ?_, hc⟩
            rw [allFilesForest]
            exact List.mem_append.mpr (Or.inl (List.mem_append.mpr (Or.inr hm)))
      · simp at h1
    · obtain ⟨f, hm, hc⟩ := dirAdds_files cur rel rest h2
      refine ⟨f, ?_, hc⟩
      rw [allFilesForest]
      exact List.mem_append.mpr (Or.inr hm)

theorem walkForest_files {excl : List String} {r : String} {c : List Nat} :
    ∀ (cur rel : String) (fo : Forest),
      Entry.fileE r c ∈ walkForest excl cur rel fo →
      ∃ f : FileNode, (r, f) ∈ allFilesForest rel fo ∧ f.content = c
  | cur, rel, .nil => by
    intro h
    simp [walkForest] at h
  | cur, rel, .cons n rb fs ch rest => by
    intro h
    rw [walkForest] at h
    rcases List.mem_append.mp h with h1 | h2
    · split_ifs at h1 with hk
      · rcases List.mem_append.mp h1 with h12 | hwf
        · rcases List.mem_append.mp h12 with hd | hfa
          · obtain ⟨f, hm, hc⟩ := dirAdds_files (pathJoin cur n) (relJoin rel n) ch hd
            refine ⟨f, ?_, hc⟩
            rw [allFilesForest]
            exact List.mem_append.mpr (Or.inl (List.mem_append.mpr (Or.inr hm)))
          · obtain ⟨f, hf, hr, hc⟩ := fileAdds_mem hfa
            refine ⟨f, ?_, hc.symm⟩
            rw [allFilesForest]
            refine List.mem_append.mpr (Or.inl (List.mem_append.mpr (Or.inl ?_)))
            rw [hr]
            exact List.mem_map_of_mem _ hf
        · obtain ⟨f, hm, hc⟩ := walkForest_files (pathJoin cur n) (relJoin rel n) ch hwf
          refine ⟨f, ?_, hc⟩
          rw [allFilesForest]
          exact List.mem_append.mpr (Or.inl (List.mem_append.mpr (Or.inr hm)))
      · simp at h1
    · obtain ⟨f, hm, hc⟩ := walkForest_files cur rel rest h2
      refine ⟨f, ?_, hc⟩
      rw [allFilesForest]
      exact List.mem_append.mpr (Or.inr hm)


/-- C7 counterexample: `tar.add` on a surviving directory is recursive, so
a file exceeding the size cap inside a non-excluded subdirectory is written
into the archive anyway (its individual add is skipped, but the recursive
directory add already included it); extracting therefore materializes a
file that is not in the claimed "under the size cap" subset. -/
theorem restore_yields_file_over_cap :
    (pathJoin "/restore" "a/big.bin", [7]) ∈
      restoreFiles
        (walkEntries [] "/d"
          ⟨[], .cons "a" true [⟨"big.bin", FILE_SIZE_LIMIT + 1, [7], true, true⟩]
            .nil .nil⟩)
        "/restore" ∧
    (FILE_SIZE_LIMIT + 1 > FILE_SIZE_LIMIT) := by
  refine ⟨by decide, by omega⟩

/-- C7 amended: archiving a directory and extracting the result into an
empty directory yields a subset of the source's files, each extracted at
the recorded relative path with byte content identical to the original —
but the subset is not bounded by the size cap or the exclusion set, since
recursive directory adds bypass both per-file checks. -/
theorem restore_subset_of_source (excl : List String)
    (src restorePath : String) (t : DirTree) (p : String) (c : List Nat)
    (h : (p, c) ∈ restoreFiles (walkEntries excl src t) restorePath) :
    ∃ r f, p = pathJoin restorePath r ∧ (r, f) ∈ allFiles t ∧
      f.content = c := by
  obtain ⟨e, he, hsome⟩ := List.mem_filterMap.mp h
  cases e with
  | dirE _ => simp at hsome
  | fileE r c' =>
    simp only [Option.some.injEq, Prod.mk.injEq] at hsome
    obtain ⟨hp, hc'⟩ := hsome
    unfold walkEntries at he
    rcases List.mem_append.mp he with h12 | hwf
    · rcases List.mem_append.mp h12 with hd | hfa
      · obtain ⟨f, hm, hc⟩ := dirAdds_files src "" t.children hd
        exact ⟨r, f, hp.symm,
          List.mem_append.mpr (Or.inr hm), by rw [hc, hc']⟩
      · obtain ⟨f, hf, hr, hc⟩ := fileAdds_mem hfa
        refine ⟨r, f, hp.symm, ?_, by rw [← hc', ← hc]⟩
        refine List.mem_append.mpr (Or.inl ?_)
        rw [hr]
        simp only [relJoin, if_pos rfl]
        exact List.mem_map_of_mem _ hf
    · obtain ⟨f, hm, hc⟩ := walkForest_files src "" t.children hwf
      exact ⟨r, f, hp.symm,
        List.mem_append.mpr (Or.inr hm), by rw [hc, hc']⟩

/-- C7 witness: the round-trip subset law applied at a concrete one-file
tree. -/
theorem restore_subset_witness :
    (pathJoin "/dst" "a.txt", [1, 2, 3]) ∈
      restoreFiles
        (walkEntries [] "/src" ⟨[⟨"a.txt", 3, [1, 2, 3], true, true⟩], .nil⟩)
        "/dst" ∧
    (∃ r f, pathJoin "/dst" "a.txt" = pathJoin "/dst" r ∧
      (r, f) ∈ allFiles ⟨[⟨"a.txt", 3, [1, 2, 3], true, true⟩], .nil⟩ ∧
      f.content = [1, 2, 3]) :=
  ⟨by decide,
    restore_subset_of_source [] "/src" "/dst"
      ⟨[⟨"a.txt", 3, [1, 2, 3], true, true⟩], .nil⟩
      (pathJoin "/dst" "a.txt") [1, 2, 3] (by decide)⟩

end BackupSystem
